import Mathlib

/-!
Verification of the OCR-Devnagari orchestration pipeline against its
natural-language specification.  The Python source under `src/ocr_hindi/` is
shallowly embedded: pure functions become Lean functions, stateful code is
explicit state passing, machine floats are modelled by `ℚ`, wall-clock
readings are passed in as explicit `elapsed` oracles, and the filesystem is a
pair of page-indexed partial maps.
-/

namespace OCRHindi

/-! ## String scanning primitives (Python `str.count`, `in`, `re.findall`)

Python strings are sequences of code points; we model them as `List Char`
(`String.data`).  `str.count` counts non-overlapping occurrences scanning left
to right; `needle in hay` is substring containment. -/

/-- Does `needle` match at the head of `hay`? -/
def matchesAt : List Char → List Char → Bool
  | [], _ => true
  | _ :: _, [] => false
  | n :: ns, h :: hs => n == h && matchesAt ns hs

/-- Auxiliary scanner for `str.count`: `skip` chars are still to be consumed
from a previous match before scanning resumes. -/
def countAux (needle : List Char) : List Char → ℕ → ℕ
  | [], _ => 0
  | c :: rest, skip =>
    if 0 < skip then countAux needle rest (skip - 1)
    else if matchesAt needle (c :: rest) then
      1 + countAux needle rest (needle.length - 1)
    else countAux needle rest 0

/-- Python `hay.count(needle)`: non-overlapping occurrences, left to right. -/
def pyCount (needle hay : List Char) : ℕ := countAux needle hay 0

/-- Python `needle in hay`: substring containment. -/
def containsSub (needle : List Char) : List Char → Bool
  | [] => needle.isEmpty
  | c :: rest => matchesAt needle (c :: rest) || containsSub needle rest

/-- Python `\s` for the whitespace characters occurring in this corpus. -/
def isPySpace (c : Char) : Bool :=
  c = ' ' || c = '\t' || c = '\n' || c = '\x0b' || c = '\x0c' || c = '\r'

/-- Python `\d` (Unicode decimal digit) restricted to the scripts this corpus
uses: ASCII digits and Devanagari digits `०`–`९`. -/
def isPyDigit (c : Char) : Bool :=
  c.isDigit || ('०' ≤ c && c ≤ '९')

/-- Length of the maximal head segment of the list satisfying `p`. -/
def takeCount (p : Char → Bool) : List Char → ℕ
  | [] => 0
  | c :: rest => if p c then 1 + takeCount p rest else 0

/-! ## Mantra/Escalation Detector (`backends/mantra_detector.py`) -/

/-- Result of mantra detection (`MantraDetectionResult`). -/
structure MantraDetectionResult where
  contains_mantra : Bool
  confidence : ℚ
  patterns_found : List String
  mantra_count : ℕ
  recommendation : String
deriving DecidableEq

/-- Bija mantras (seed syllables), `MantraDetector.BIJA_MANTRAS`. -/
def BIJA_MANTRAS : List String :=
  ["ॐ", "ओं",
   "ह्रीं", "हृीं",
   "श्रीं", "श्री",
   "क्लीं", "क्ली",
   "ऐं",
   "हुं", "हूं",
   "फट्", "फट",
   "स्वाहा",
   "नमः", "नम:",
   "वौषट्",
   "वषट्",
   "हं", "हाँ",
   "क्षं",
   "ठः",
   "क्रों", "क्रौं",
   "ग्लौं",
   "द्रां", "द्रीं", "द्रूं",
   "ब्लूं",
   "स्त्रीं"]

/-- Verse/shloka markers, `MantraDetector.VERSE_MARKERS`. -/
def VERSE_MARKERS : List String := ["॥", "।।", "||"]

/-- Mantra section indicators, `MantraDetector.SECTION_INDICATORS`. -/
def SECTION_INDICATORS : List String :=
  ["मन्त्र", "मंत्र",
   "यन्त्र", "यंत्र",
   "तन्त्र", "तंत्र",
   "विनियोग",
   "ऋषि",
   "छन्द", "छंद",
   "देवता",
   "बीज",
   "शक्ति",
   "कीलक",
   "न्यास",
   "ध्यान",
   "कवच",
   "स्तोत्र",
   "सूक्त",
   "जप",
   "पुरश्चरण",
   "अनुष्ठान",
   "साधना",
   "दीक्षा",
   "होम", "हवन",
   "आहुति",
   "प्राणप्रतिष्ठा"]

/-- Deity names, `MantraDetector.DEITY_NAMES`. -/
def DEITY_NAMES : List String :=
  ["शिव", "महादेव", "रुद्र",
   "विष्णु", "नारायण", "हरि",
   "ब्रह्मा",
   "गणेश", "गणपति", "विनायक",
   "दुर्गा", "काली", "चण्डी", "चामुण्डा",
   "लक्ष्मी", "सरस्वती",
   "हनुमान", "मारुति",
   "सूर्य", "चन्द्र",
   "भैरव", "भैरवी",
   "त्रिपुरसुन्दरी", "ललिता", "राजराजेश्वरी",
   "तारा", "बगलामुखी", "धूमावती",
   "मातङ्गी", "कमला"]

/-- Yantra-related terms, `MantraDetector.YANTRA_TERMS`. -/
def YANTRA_TERMS : List String :=
  ["यन्त्र", "यंत्र",
   "मण्डल", "मंडल",
   "चक्र",
   "त्रिकोण",
   "षट्कोण",
   "अष्टदल",
   "बिन्दु", "बिंदु",
   "भूपुर",
   "कमल",
   "पद्म",
   "श्रीचक्र",
   "श्रीयन्त्र"]

/-- Matcher for the first `VERSE_NUMBER_PATTERN` shape `॥\s*\d+\s*॥` (the
second alternative `॥\s*[०-९]+\s*॥` is subsumed because Python's `\d` already
matches Devanagari digits).  Returns the matched length.  The character
classes `॥`, `\s`, `\d` are pairwise disjoint, so greedy scanning without
backtracking is exact. -/
def matchLenDanda (l : List Char) : Option ℕ :=
  match l with
  | '॥' :: rest =>
      let s1 := takeCount isPySpace rest
      let r1 := rest.drop s1
      let d := takeCount isPyDigit r1
      if d = 0 then none else
      let r2 := r1.drop d
      let s2 := takeCount isPySpace r2
      match r2.drop s2 with
      | '॥' :: _ => some (1 + s1 + d + s2 + 1)
      | _ => none
  | _ => none

/-- Matcher for the `VERSE_NUMBER_PATTERN` alternative `\|\|\s*\d+\s*\|\|`. -/
def matchLenAscii (l : List Char) : Option ℕ :=
  match l with
  | '|' :: '|' :: rest =>
      let s1 := takeCount isPySpace rest
      let r1 := rest.drop s1
      let d := takeCount isPyDigit r1
      if d = 0 then none else
      let r2 := r1.drop d
      let s2 := takeCount isPySpace r2
      match r2.drop s2 with
      | '|' :: '|' :: _ => some (2 + s1 + d + s2 + 2)
      | _ => none
  | _ => none

/-- Scanner for `len(VERSE_NUMBER_PATTERN.findall(text))`: `re.findall` counts
non-overlapping matches left to right, resuming after each match. -/
def countVerseAux : List Char → ℕ → ℕ
  | [], _ => 0
  | c :: rest, skip =>
    if 0 < skip then countVerseAux rest (skip - 1)
    else
      match matchLenDanda (c :: rest) with
      | some len => 1 + countVerseAux rest (len - 1)
      | none =>
        match matchLenAscii (c :: rest) with
        | some len => 1 + countVerseAux rest (len - 1)
        | none => countVerseAux rest 0

/-- Count of numbered-verse matches in the text. -/
def numberedVerseCount (l : List Char) : ℕ := countVerseAux l 0

/-- Total occurrence count of bija mantras (`bija_count` in `detect`). -/
def bijaOccTotal (t : List Char) : ℕ :=
  (BIJA_MANTRAS.map fun b => pyCount b.data t).sum

/-- Number of distinct bija patterns with at least one occurrence; `detect`
appends one 0.9 score entry per such pattern. -/
def bijaDistinct (t : List Char) : ℕ :=
  (BIJA_MANTRAS.filter fun b => 0 < pyCount b.data t).length

/-- Pattern strings recorded by the bija loop of `detect`. -/
def bijaPatternStrs (t : List Char) : List String :=
  BIJA_MANTRAS.filterMap fun b =>
    let c := pyCount b.data t
    if 0 < c then some s!"bija:{b}x{c}" else none

/-- Total occurrence count of verse markers (`verse_marker_count`). -/
def verseMarkerTotal (t : List Char) : ℕ :=
  (VERSE_MARKERS.map fun m => pyCount m.data t).sum

/-- Number of distinct section indicators contained in the text
(`section_count`). -/
def sectionCount (t : List Char) : ℕ :=
  (SECTION_INDICATORS.filter fun ind => containsSub ind.data t).length

/-- Pattern accumulation of the section-indicator loop: an entry is appended
only while fewer than 10 patterns have been recorded. -/
def sectionFoldPatterns (ps : List String) (t : List Char) : List String :=
  SECTION_INDICATORS.foldl
    (fun acc ind =>
      if containsSub ind.data t then
        if acc.length < 10 then acc ++ [s!"section:{ind}"] else acc
      else acc)
    ps

/-- Number of distinct deity names contained in the text (`deity_count`). -/
def deityCount (t : List Char) : ℕ :=
  (DEITY_NAMES.filter fun d => containsSub d.data t).length

/-- Number of distinct yantra terms contained in the text (`yantra_count`). -/
def yantraCount (t : List Char) : ℕ :=
  (YANTRA_TERMS.filter fun y => containsSub y.data t).length

/-- The non-bija part of the `scores` list built by `detect`, in construction
order: 0.7 for verse markers, 0.8 for numbered verses,
`min(0.85, 0.5 + 0.1·section_count)` for section indicators, 0.6 for deity
names and 0.75 for yantra terms (grouping of the appends is immaterial). -/
def scoresTail (t : List Char) : List ℚ :=
  (if 0 < verseMarkerTotal t then [7/10] else [])
  ++ ((if 0 < numberedVerseCount t then [4/5] else [])
  ++ ((if 0 < sectionCount t then
        [min (17/20) (1/2 + (sectionCount t : ℚ) * (1/10))] else [])
  ++ ((if 0 < deityCount t then [3/5] else [])
  ++ (if 0 < yantraCount t then [3/4] else []))))

/-- The `scores` list built by `detect`: one 0.9 entry per matched bija
pattern, then the per-category entries of `scoresTail`. -/
def detectScores (t : List Char) : List ℚ :=
  List.replicate (bijaDistinct t) (9/10) ++ scoresTail t

/-- Python `max` over a nonempty list (0 on the empty list, never used). -/
def listMaxQ : List ℚ → ℚ
  | [] => 0
  | x :: xs => xs.foldl max x

/-- Overall confidence computed by `detect`:
`max(scores) * (1 + min(len(scores) - 1, 5) * 0.05)` capped at 1.0, and 0 when
no score was recorded. -/
def confidenceOf (t : List Char) : ℚ :=
  let scores := detectScores t
  if scores.isEmpty then 0
  else min 1 (listMaxQ scores * (1 + (min (scores.length - 1) 5 : ℕ) * (1/20)))

/-- Shallow embedding of `MantraDetector.detect`.  `strict_mode` is the
constructor flag; the empty string is Python-falsy and returns the early
"skip" result. -/
def MantraDetector.detect (strict_mode : Bool) (text : String) :
    MantraDetectionResult :=
  if text = "" then
    { contains_mantra := false, confidence := 0, patterns_found := []
      mantra_count := 0, recommendation := "skip" }
  else
    let t := text.data
    let bija_count := bijaOccTotal t
    let patterns0 := bijaPatternStrs t
    let verse_marker_count := verseMarkerTotal t
    let patterns1 := patterns0 ++
      (if 0 < verse_marker_count then [s!"verse_markers:{verse_marker_count}"]
       else [])
    let numbered_verses := numberedVerseCount t
    let patterns2 := patterns1 ++
      (if 0 < numbered_verses then [s!"numbered_verses:{numbered_verses}"]
       else [])
    let section_count := sectionCount t
    let patterns3 := sectionFoldPatterns patterns2 t
    let deity_count := deityCount t
    let patterns4 := patterns3 ++
      (if 0 < deity_count then [s!"deities:{deity_count}"] else [])
    let yantra_count := yantraCount t
    let patterns5 := patterns4 ++
      (if 0 < yantra_count then [s!"yantra_terms:{yantra_count}"] else [])
    let confidence := confidenceOf t
    let mantra_count := bija_count + numbered_verses
    let contains_mantra :=
      if strict_mode then
        decide (0 < bija_count ∨ 0 < numbered_verses ∨ 2 ≤ section_count)
      else
        decide (2 ≤ bija_count ∨ (0 < numbered_verses ∧ 0 < section_count) ∨
                (4/5 : ℚ) < confidence)
    let recommendation :=
      if 3 ≤ bija_count ∨ (0 < bija_count ∧ 2 ≤ section_count) then
        "high_priority"
      else if contains_mantra then "verify"
      else "skip"
    { contains_mantra := contains_mantra, confidence := confidence
      patterns_found := patterns5, mantra_count := mantra_count
      recommendation := recommendation }

/-! ## Recognition results and the Hybrid Router (`backends/base.py`,
`backends/hybrid_backend.py`)

Backend calls are opaque external collaborators; `process_image` is embedded
as a function of the result the primary backend returns for this image and
the result the Gemini backend would return if invoked.  The returned `ℕ`
counts how many times the Gemini backend's `process_image` was invoked.
Wall-clock durations (`time.time() - start_time`) are supplied by the
`elapsed` oracle. -/

/-- Result of OCR processing for a single page (`OCRResult` in `base.py`);
floats are modelled by `ℚ`. -/
structure OCRResult where
  page_num : ℕ
  text : String
  success : Bool
  confidence : ℚ := 1
  error : Option String := none
  duration : ℚ := 0
  backend_used : String := ""
  needs_verification : Bool := false
deriving DecidableEq

/-- Running counters of `HybridBackend._stats`. -/
structure HybridStats where
  total_pages : ℕ := 0
  primary_only : ℕ := 0
  gemini_verified : ℕ := 0
  gemini_for_low_confidence : ℕ := 0
  gemini_for_mantras : ℕ := 0
  total_duration : ℚ := 0
deriving DecidableEq

/-- Configuration and state of `HybridBackend` relevant to `process_image`.
The mantra detector is constructed with `strict_mode = verify_mantras`. -/
structure HybridBackend where
  confidence_threshold : ℚ := 17/20
  verify_mantras : Bool := true
  primary_backend_type : String := "easyocr"
  initialized : Bool := false
  stats : HybridStats := {}
deriving DecidableEq

/-- The `name` property of `HybridBackend`. -/
def HybridBackend.name : String := "hybrid"

/-- Shallow embedding of `HybridBackend.process_image`.  `primaryResult` is
what the primary backend returns for `(image, page_num)`; `geminiResult` is
what the Gemini backend would return if invoked.  Returns the produced
result, the updated backend state and the number of Gemini invocations. -/
def HybridBackend.process_image (hb : HybridBackend)
    (primaryResult geminiResult : OCRResult) (page_num : ℕ) (elapsed : ℚ) :
    OCRResult × HybridBackend × ℕ :=
  if ¬ hb.initialized then
    ({ page_num := page_num, text := "", success := false
       error := some "Backend not initialized"
       backend_used := HybridBackend.name }, hb, 0)
  else
    let st0 := { hb.stats with total_pages := hb.stats.total_pages + 1 }
    if ¬ primaryResult.success then
      -- Primary failed, try Gemini directly
      let g := { geminiResult with
                   backend_used := HybridBackend.name ++ ":gemini-fallback" }
      let st1 := { st0 with gemini_verified := st0.gemini_verified + 1
                            total_duration := st0.total_duration + elapsed }
      (g, { hb with stats := st1 }, 1)
    else
      -- Step 2: decide whether Gemini verification is needed
      let lowConf := decide (primaryResult.confidence < hb.confidence_threshold)
      let st1 := if lowConf then
          { st0 with gemini_for_low_confidence :=
                       st0.gemini_for_low_confidence + 1 }
        else st0
      let mantraFlag := hb.verify_mantras &&
        (let mres := MantraDetector.detect hb.verify_mantras primaryResult.text
         mres.recommendation == "verify" ||
           mres.recommendation == "high_priority")
      let st2 := if mantraFlag then
          { st1 with gemini_for_mantras := st1.gemini_for_mantras + 1 }
        else st1
      let needs_gemini := lowConf || mantraFlag
      if needs_gemini then
        if geminiResult.success then
          let g := { geminiResult with
                       duration := elapsed
                       backend_used :=
                         HybridBackend.name ++ ":" ++
                           hb.primary_backend_type ++ "+gemini" }
          let st3 := { st2 with gemini_verified := st2.gemini_verified + 1
                                total_duration := st2.total_duration + elapsed }
          (g, { hb with stats := st3 }, 1)
        else
          -- Gemini failed, fall back to primary result
          let p := { primaryResult with
                       backend_used :=
                         HybridBackend.name ++ ":" ++
                           hb.primary_backend_type ++ "-fallback" }
          let st3 := { st2 with total_duration := st2.total_duration + elapsed }
          (p, { hb with stats := st3 }, 1)
      else
        -- Step 4: primary result kept (high confidence, no mantras)
        let p := { primaryResult with
                     duration := elapsed
                     backend_used :=
                       HybridBackend.name ++ ":" ++ hb.primary_backend_type }
        let st3 := { st2 with primary_only := st2.primary_only + 1
                              total_duration := st2.total_duration + elapsed }
        (p, { hb with stats := st3 }, 0)

/-! ## Progress Tracker (`utils.py`) -/

/-- Tracks OCR processing progress (`ProgressState` in `utils.py`).  Python
stores the page collections as lists; timestamps are opaque strings. -/
structure ProgressState where
  pdf_path : String
  total_pages : ℕ
  completed_pages : List ℕ := []
  failed_pages : List ℕ := []
  started_at : String := ""
  last_updated : String := ""
deriving DecidableEq

/-- Embedding of `ProgressState.mark_completed`: append the page if absent,
then remove it from the failed list (`list.remove` removes the first
occurrence). -/
def ProgressState.mark_completed (s : ProgressState) (page : ℕ) :
    ProgressState :=
  { s with
      completed_pages :=
        if page ∈ s.completed_pages then s.completed_pages
        else s.completed_pages ++ [page]
      failed_pages :=
        if page ∈ s.failed_pages then s.failed_pages.erase page
        else s.failed_pages }

/-- Embedding of `ProgressState.mark_failed`: append the page if absent. -/
def ProgressState.mark_failed (s : ProgressState) (page : ℕ) : ProgressState :=
  { s with
      failed_pages :=
        if page ∈ s.failed_pages then s.failed_pages
        else s.failed_pages ++ [page] }

/-- Embedding of `ProgressState.get_pending_pages`: requested pages not in
`completed_pages`, in request order. -/
def ProgressState.get_pending_pages (s : ProgressState)
    (requested_pages : List ℕ) : List ℕ :=
  requested_pages.filter (fun p => ¬ p ∈ s.completed_pages)

/-- One mark operation on a `ProgressState`. -/
inductive MarkOp where
  | completed (page : ℕ)
  | failed (page : ℕ)
deriving DecidableEq

/-- Apply one mark operation. -/
def ProgressState.applyOp (s : ProgressState) : MarkOp → ProgressState
  | .completed p => s.mark_completed p
  | .failed p => s.mark_failed p

/-- Apply a sequence of mark operations, first element first. -/
def ProgressState.runOps (s : ProgressState) : List MarkOp → ProgressState
  | [] => s
  | op :: rest => (s.applyOp op).runOps rest

/-- The completed/failed sets of a state are disjoint. -/
def ProgressState.DisjointSets (s : ProgressState) : Prop :=
  ∀ p, p ∈ s.completed_pages → ¬ p ∈ s.failed_pages

/-! ## Result Cache (`cache.py`)

The cache directory is modelled as two page-indexed partial maps: the
committed page files `page_%04d.txt` and the temporary files `page_%04d.tmp`
(`target.with_suffix(".tmp")`).  The best-effort sidecar `page_%04d.meta.json`
is written after the rename inside its own try/except and cannot affect the
text files, so it is not modelled.  `save` writes the text to the temporary
file and atomically renames it onto the page path; on an exception it unlinks
the temporary file and re-raises.  A process crash can interrupt the
temporary write (leaving a partial fragment) or strike before the rename —
either way the committed map is untouched. -/

/-- Filesystem state of one cache directory. -/
structure CacheFS where
  committed : ℕ → Option String
  temp : ℕ → Option String

/-- The empty cache directory. -/
def CacheFS.empty : CacheFS := { committed := fun _ => none, temp := fun _ => none }

/-- How one `OCRCache.save` call ends: normal return, an exception during the
temporary write (having put down the fragment `frag`), an exception at the
rename, or a process crash at either point. -/
inductive SaveOutcome where
  | ok
  | writeError (frag : String)
  | renameError
  | crashDuringWrite (frag : String)
  | crashBeforeRename
deriving DecidableEq

/-- What the caller observes from one `save` call. -/
inductive SaveResult where
  | returned
  | raised
  | crashed
deriving DecidableEq

/-- Shallow embedding of `OCRCache.save` under the injected outcome. -/
def OCRCache.save (fs : CacheFS) (page : ℕ) (text : String) :
    SaveOutcome → CacheFS × SaveResult
  | .ok =>
      -- temp written with the full text, then atomically renamed onto target
      ({ committed := Function.update fs.committed page (some text)
         temp := Function.update fs.temp page none }, .returned)
  | .writeError _ =>
      -- write_text raised: cleanup unlinks the temp file, error propagates
      ({ fs with temp := Function.update fs.temp page none }, .raised)
  | .renameError =>
      -- rename raised after the full temp write: temp unlinked, error
      -- propagates; the target is untouched
      ({ fs with temp := Function.update fs.temp page none }, .raised)
  | .crashDuringWrite frag =>
      -- process died mid-write: a partial fragment remains in the temp file
      ({ fs with temp := Function.update fs.temp page (some frag) }, .crashed)
  | .crashBeforeRename =>
      -- process died between write and rename: full temp remains, no commit
      ({ fs with temp := Function.update fs.temp page (some text) }, .crashed)

/-- Shallow embedding of `OCRCache.get`: reads the committed page file
(`page_%04d.txt`) if it exists; temporary files are never read. -/
def OCRCache.get (fs : CacheFS) (page : ℕ) : Option String :=
  fs.committed page

/-- One recorded `save` call. -/
structure SaveEvent where
  page : ℕ
  text : String
  outcome : SaveOutcome
deriving DecidableEq

/-- Run a sequence of `save` calls over the filesystem. -/
def runSaves (fs : CacheFS) : List SaveEvent → CacheFS
  | [] => fs
  | e :: rest => runSaves (OCRCache.save fs e.page e.text e.outcome).1 rest

/-- The trace contains a successfully committed `save` of `text` for `page`. -/
def CommittedIn (trace : List SaveEvent) (page : ℕ) (text : String) : Prop :=
  ∃ e ∈ trace, e.page = page ∧ e.text = text ∧ e.outcome = SaveOutcome.ok

/-! ## Token-bucket rate limiter (`async_processor.py`, `TokenBucket`) -/

/-- State of the token bucket; `last_update` is replaced by passing the
elapsed monotonic time into `acquire` directly. -/
structure TokenBucket where
  rate : ℚ
  capacity : ℚ
  tokens : ℚ
deriving DecidableEq

/-- Shallow embedding of `TokenBucket.acquire` (the body runs under the
bucket's lock, so callers are serialized and the step is atomic).  `elapsed`
is `now - last_update` in seconds; returns the waited time and the new
state. -/
def TokenBucket.acquire (tb : TokenBucket) (elapsed : ℚ) (cost : ℚ) :
    ℚ × TokenBucket :=
  let tokens1 := min tb.capacity (tb.tokens + elapsed * tb.rate)
  if tokens1 < cost then
    ((cost - tokens1) / tb.rate, { tb with tokens := 0 })
  else
    (0, { tb with tokens := tokens1 - cost })

/-! ## Retry/backoff loops (`async_processor.py` and
`backends/gemini_backend.py`)

Each attempt's interaction with the external API is an oracle
`outcome : ℕ → …` giving what attempt `n` produced (a response or a raised
exception).  The embedding returns the terminal result together with the list
of backoff sleeps performed, in order.  Token-usage accounting is omitted: it
does not influence control flow. -/

/-- Configuration fields of `AsyncOCRConfig` used by the retry loop. -/
structure AsyncOCRConfig where
  max_retries : ℕ := 3
  retry_base_delay : ℚ := 1
deriving DecidableEq

/-- Result of processing a single page (`PageResult`). -/
structure PageResult where
  page_num : ℕ
  text : String := ""
  success : Bool := false
  error : Option String := none
  duration : ℚ := 0
deriving DecidableEq

/-- What one attempt's API call did: returned a response with the given
(optional) text, or raised an exception with the given message. -/
inductive AttemptOutcome where
  | response (rawText : Option String)
  | exn (msg : String)
deriving DecidableEq

/-- Python `str.lower()` on the code points (ASCII case folding; the scripts
of this corpus have no other cased letters). -/
def pyLower (s : String) : List Char := s.data.map Char.toLower

/-- The quota test both loops apply to a caught exception message:
`"429" in error_msg or "quota" in error_msg.lower()`. -/
def isQuotaError (msg : String) : Bool :=
  containsSub "429".data msg.data || containsSub "quota".data (pyLower msg)

/-- Python `response.text.strip() if response.text else ""`. -/
def stripResponse : Option String → String
  | some s => s.trim
  | none => ""

/-- Body of the `for attempt in range(max_retries)` loop of
`AsyncOCRProcessor._process_single_page`, recursing on the remaining
iterations.  `shutdown` is the `_shutdown` flag as observed at the top of
each iteration; `durationOf n` is the monotonic elapsed time had attempt `n`
succeeded, `finalDuration` the elapsed time at retry exhaustion. -/
def asyncAttemptsAux (cfg : AsyncOCRConfig) (shutdown : ℕ → Bool)
    (outcome : ℕ → AttemptOutcome) (durationOf : ℕ → ℚ) (finalDuration : ℚ)
    (page_num : ℕ) : ℕ → ℕ → PageResult × List ℚ
  | _, 0 =>
      ({ page_num := page_num
         error := some s!"Failed after {cfg.max_retries} attempts"
         duration := finalDuration }, [])
  | attempt, remaining + 1 =>
      if shutdown attempt then
        ({ page_num := page_num, error := some "Shutdown requested"
           duration := 0 }, [])
      else
        match outcome attempt with
        | .response raw =>
            ({ page_num := page_num, text := stripResponse raw
               success := true, duration := durationOf attempt }, [])
        | .exn msg =>
            if isQuotaError msg then
              -- rate limit: exponential backoff with the steeper multiplier
              let d := cfg.retry_base_delay * 3 ^ attempt
              let (r, ds) := asyncAttemptsAux cfg shutdown outcome durationOf
                finalDuration page_num (attempt + 1) remaining
              (r, d :: ds)
            else if attempt < cfg.max_retries - 1 then
              let d := cfg.retry_base_delay * 2 ^ attempt
              let (r, ds) := asyncAttemptsAux cfg shutdown outcome durationOf
                finalDuration page_num (attempt + 1) remaining
              (r, d :: ds)
            else
              asyncAttemptsAux cfg shutdown outcome durationOf finalDuration
                page_num (attempt + 1) remaining

/-- Shallow embedding of `AsyncOCRProcessor._process_single_page`. -/
def AsyncOCRProcessor.process_single_page (cfg : AsyncOCRConfig)
    (shutdown : ℕ → Bool) (outcome : ℕ → AttemptOutcome)
    (durationOf : ℕ → ℚ) (finalDuration : ℚ) (page_num : ℕ) :
    PageResult × List ℚ :=
  asyncAttemptsAux cfg shutdown outcome durationOf finalDuration page_num 0
    cfg.max_retries

/-- Error patterns of `GeminiBackend.ERROR_PATTERNS` (\x27 is the ASCII
apostrophe). -/
def ERROR_PATTERNS : List String :=
  ["cannot process",
   "unable to",
   "error:",
   "i\x27m sorry",
   "i cannot",
   "i can\x27t",
   "cannot extract",
   "unable to extract",
   "no text found",
   "image is not clear",
   "cannot read",
   "cannot see",
   "not able to"]

/-- Minimum characters for a valid OCR result
(`GeminiBackend.MIN_VALID_LENGTH`). -/
def MIN_VALID_LENGTH : ℕ := 20

/-- Python `str.isalnum` restricted to the scripts this corpus uses: ASCII
alphanumerics and the Devanagari block U+0900–U+097F. -/
def pyIsAlnum (c : Char) : Bool :=
  c.isAlphanum || ('ऀ' ≤ c && c ≤ 'ॿ')

/-- Shallow embedding of `GeminiBackend._validate_response`. -/
def GeminiBackend.validate_response (text : String) : Bool × String :=
  if text = "" ∨ text.trim.length < MIN_VALID_LENGTH then
    (false, s!"Response too short ({text.trim.length} chars, min {MIN_VALID_LENGTH})")
  else
    let text_lower := (pyLower text).take 300
    match ERROR_PATTERNS.find? (fun p => containsSub p.data text_lower) with
    | some p => (false, s!"Response contains error pattern: \x27{p}\x27")
    | none =>
        if (text.trim.data.any pyIsAlnum) then (true, "")
        else (false, "Response contains no alphanumeric characters")

/-- Shallow embedding of `GeminiBackend._contains_mantra`. -/
def GeminiBackend.contains_mantra (detect_mantras : Bool) (text : String) :
    Bool :=
  if ¬ detect_mantras then false
  else
    ["॥", "ॐ", "स्वाहा", "नमः", "फट्", "हुं", "ह्रीं", "श्रीं", "क्लीं",
     "ऐं"].any fun p => containsSub p.data text.data

/-- Body of the retry loop of `GeminiBackend.process_image`, recursing on the
remaining iterations.  Validation failures consume an attempt without a
sleep; the last attempt's validation failure is returned as the terminal
result. -/
def geminiAttemptsAux (max_retries : ℕ) (outcome : ℕ → AttemptOutcome)
    (durationOf : ℕ → ℚ) (finalDuration : ℚ) (detect_mantras : Bool)
    (page_num : ℕ) : ℕ → ℕ → OCRResult × List ℚ
  | _, 0 =>
      ({ page_num := page_num, text := "", success := false
         error := some s!"Failed after {max_retries} attempts"
         duration := finalDuration, backend_used := "gemini" }, [])
  | attempt, remaining + 1 =>
      match outcome attempt with
      | .response raw =>
          let text := stripResponse raw
          let v := GeminiBackend.validate_response text
          if v.1 then
            ({ page_num := page_num, text := text, success := true
               confidence := 19/20, duration := durationOf attempt
               backend_used := "gemini"
               needs_verification :=
                 GeminiBackend.contains_mantra detect_mantras text }, [])
          else if attempt < max_retries - 1 then
            geminiAttemptsAux max_retries outcome durationOf finalDuration
              detect_mantras page_num (attempt + 1) remaining
          else
            ({ page_num := page_num, text := "", success := false
               error := some s!"Validation failed: {v.2}"
               duration := durationOf attempt, backend_used := "gemini" }, [])
      | .exn msg =>
          if isQuotaError msg then
            let d := (2 : ℚ) * 2 ^ attempt * 2
            let (r, ds) := geminiAttemptsAux max_retries outcome durationOf
              finalDuration detect_mantras page_num (attempt + 1) remaining
            (r, d :: ds)
          else if attempt < max_retries - 1 then
            let d := (2 : ℚ) * 2 ^ attempt
            let (r, ds) := geminiAttemptsAux max_retries outcome durationOf
              finalDuration detect_mantras page_num (attempt + 1) remaining
            (r, d :: ds)
          else
            geminiAttemptsAux max_retries outcome durationOf finalDuration
              detect_mantras page_num (attempt + 1) remaining

/-- Shallow embedding of the retry loop of `GeminiBackend.process_image`
(after the initialization guard). -/
def GeminiBackend.process_image (max_retries : ℕ)
    (outcome : ℕ → AttemptOutcome) (durationOf : ℕ → ℚ) (finalDuration : ℚ)
    (detect_mantras : Bool) (page_num : ℕ) : OCRResult × List ℚ :=
  geminiAttemptsAux max_retries outcome durationOf finalDuration
    detect_mantras page_num 0 max_retries

/-! ## Resume / pending-page computation
(`multi_processor.py`, `process_pdf_async` lines 314–338) -/

/-- Python `max(pages)` (the code assumes a nonempty request list). -/
def pagesMax (pages : List ℕ) : ℕ := pages.foldl max 0

/-- The fresh state `ProgressState(pdf_path=str(pdf_path),
total_pages=max(pages))` created when no snapshot is loaded. -/
def freshState (pdfPath : String) (pages : List ℕ) : ProgressState :=
  { pdf_path := pdfPath, total_pages := pagesMax pages }

/-- Shallow embedding of the pending-page computation of
`MultiBackendProcessor.process_pdf_async`: load the progress snapshot when
resuming (`loaded` is what `ProgressState.load` produced), fall back to a
fresh state, sync cached pages into the completed set, then drop requested
pages that are completed or cached.  `cachedPages` is `cache.pages()` in some
iteration order of the Python set. -/
def computePendingResume (resume : Bool) (loaded : Option ProgressState)
    (pdfPath : String) (pages : List ℕ) (cachedPages : List ℕ) :
    ProgressState × List ℕ :=
  let state0 :=
    if resume then loaded.getD (freshState pdfPath pages)
    else freshState pdfPath pages
  let state :=
    if resume ∧ cachedPages ≠ [] then
      cachedPages.foldl
        (fun s page =>
          if page ∈ s.completed_pages then s else s.mark_completed page)
        state0
    else state0
  let pending := state.get_pending_pages pages
  let pending := pending.filter (fun p => ¬ p ∈ cachedPages)
  (state, pending)

/-! ## Output artifact merge (`_write_output` in `multi_processor.py` and
`async_processor.py`)

Both `_write_output` methods parse the prior artifact back into a page→text
dict, merge `{**existing_results, **results}` (new results win), and rewrite
one section per page in ascending page order.  A Python dict built by
repeated insertion is modelled as an insertion list: the binding of a key is
its last insertion, so lookup searches the reversed list. -/

/-- Lookup in an insertion list: the most recent binding wins. -/
def dictGet (d : List (ℕ × String)) (k : ℕ) : Option String :=
  d.reverse.lookup k

/-- Page sections written by `_write_output`, in file order: the merged dict
`{**existing_results, **results}` emitted in ascending page-number order.
The header lines carry no page content and are not modelled. -/
def writeOutputSections (existing results : List (ℕ × String)) :
    List (ℕ × String) :=
  let all := existing ++ results
  let sorted_pages := ((all.map Prod.fst).dedup).mergeSort (· ≤ ·)
  sorted_pages.map fun p => (p, (dictGet all p).getD "")

/-! ## Claim-side definitions

Definitions in this section state formulas the way the specification words
them, to be compared against the embedded code. -/

/-- Weights of the matched categories, one entry per matched category, in the
category order of `detect` (bija 0.9, verse markers 0.7, numbered verses 0.8,
section keywords `min(0.85, 0.5 + 0.1·k)`, deities 0.6, yantra terms 0.75). -/
def categoryWeights (t : List Char) : List ℚ :=
  (if 0 < bijaDistinct t then [9/10] else []) ++ scoresTail t

/-- The overall score as the specification words it: the maximum single
matched-category weight scaled by 0.05 per additional distinct matched
CATEGORY beyond the first (capped at 5 extra), capped at 1.0; 0 when nothing
matches. -/
def claimScore (t : List Char) : ℚ :=
  let cats := categoryWeights t
  if cats.isEmpty then 0
  else min 1 (listMaxQ cats * (1 + (min (cats.length - 1) 5 : ℕ) * (1/20)))

/-- Number of score entries `detect` records: one per distinct matched bija
pattern plus one per other matched category. -/
def bonusEntryCount (t : List Char) : ℕ :=
  bijaDistinct t
    + (if 0 < verseMarkerTotal t then 1 else 0)
    + (if 0 < numberedVerseCount t then 1 else 0)
    + (if 0 < sectionCount t then 1 else 0)
    + (if 0 < deityCount t then 1 else 0)
    + (if 0 < yantraCount t then 1 else 0)

/-- The amended score formula: the maximum matched-category weight scaled by
0.05 per additional score ENTRY beyond the first — where the bija category
contributes one entry per distinct matched bija pattern and every other
matched category one entry — capped at 5 bonus steps and at 1.0; 0 when
nothing matches. -/
def amendedScore (t : List Char) : ℚ :=
  if bonusEntryCount t = 0 then 0
  else
    min 1 (listMaxQ (categoryWeights t)
      * (1 + (min (bonusEntryCount t - 1) 5 : ℕ) * (1/20)))

/-- A call sequence never marks an already-completed page as failed — the
discipline the pipeline coordinator follows, since each page receives exactly
one terminal outcome per run and resumed runs exclude completed pages. -/
def safeSeq : ProgressState → List MarkOp → Bool
  | _, [] => true
  | s, .completed p :: rest => safeSeq (s.mark_completed p) rest
  | s, .failed p :: rest =>
      decide (¬ p ∈ s.completed_pages) && safeSeq (s.mark_failed p) rest

instance (s : ProgressState) : Decidable s.DisjointSets :=
  inferInstanceAs
    (Decidable (∀ p ∈ s.completed_pages, ¬ p ∈ s.failed_pages))

/-! ## Helper lemmas -/

/-- `mark_completed` preserves disjointness of the two page sets and
dup-freeness of the failed list. -/
theorem markCompleted_preserves (s : ProgressState) (p : ℕ)
    (hinv : s.DisjointSets) (hnd : s.failed_pages.Nodup) :
    (s.mark_completed p).DisjointSets ∧
      (s.mark_completed p).failed_pages.Nodup := by
  constructor
  · intro q hq hqf
    simp only [ProgressState.mark_completed] at hq hqf
    have hqmem : q ∈ s.completed_pages ∨ q = p := by
      by_cases hpc : p ∈ s.completed_pages
      · simp only [if_pos hpc] at hq; exact Or.inl hq
      · simp only [if_neg hpc, List.mem_append, List.mem_singleton] at hq
        exact hq
    by_cases hpf : p ∈ s.failed_pages
    · simp only [if_pos hpf] at hqf
      rcases hqmem with hqc | rfl
      · exact hinv q hqc (List.mem_of_mem_erase hqf)
      · exact ((hnd.mem_erase_iff.mp hqf).1 rfl)
    · simp only [if_neg hpf] at hqf
      rcases hqmem with hqc | rfl
      · exact hinv q hqc hqf
      · exact hpf hqf
  · simp only [ProgressState.mark_completed]
    by_cases hpf : p ∈ s.failed_pages
    · simp only [if_pos hpf]; exact hnd.erase p
    · simpa only [if_neg hpf] using hnd

/-- `mark_failed` on a page not yet completed preserves disjointness and
dup-freeness. -/
theorem markFailed_preserves (s : ProgressState) (p : ℕ)
    (hinv : s.DisjointSets) (hnd : s.failed_pages.Nodup)
    (hp : ¬ p ∈ s.completed_pages) :
    (s.mark_failed p).DisjointSets ∧ (s.mark_failed p).failed_pages.Nodup := by
  constructor
  · intro q hq hqf
    simp only [ProgressState.mark_failed] at hqf
    by_cases hpf : p ∈ s.failed_pages
    · simp only [if_pos hpf] at hqf; exact hinv q hq hqf
    · simp only [if_neg hpf, List.mem_append, List.mem_singleton] at hqf
      rcases hqf with hqf | rfl
      · exact hinv q hq hqf
      · exact hp hq
  · simp only [ProgressState.mark_failed]
    by_cases hpf : p ∈ s.failed_pages
    · simpa only [if_pos hpf] using hnd
    · simp only [if_neg hpf]
      simp [List.nodup_append, hnd, hpf]

/-! ## Claims -/

/-- C5: `TokenBucket.acquire(cost)` first replenishes the token count to
`min(capacity, tokens + elapsed·rate)`; if the replenished count is below
`cost` it waits exactly `(cost - tokens)/rate` seconds and zeroes the count,
otherwise it decrements by `cost` and waits zero; the wait is never
negative. -/
theorem C5_token_bucket_acquire (tb : TokenBucket) (elapsed cost : ℚ)
    (hrate : 0 < tb.rate) :
    (min tb.capacity (tb.tokens + elapsed * tb.rate) < cost →
        (tb.acquire elapsed cost).1 =
          (cost - min tb.capacity (tb.tokens + elapsed * tb.rate)) / tb.rate ∧
        (tb.acquire elapsed cost).2.tokens = 0) ∧
    (¬ min tb.capacity (tb.tokens + elapsed * tb.rate) < cost →
        (tb.acquire elapsed cost).1 = 0 ∧
        (tb.acquire elapsed cost).2.tokens =
          min tb.capacity (tb.tokens + elapsed * tb.rate) - cost) ∧
    0 ≤ (tb.acquire elapsed cost).1 := by
  refine ⟨fun h => ?_, fun h => ?_, ?_⟩
  · constructor <;> (simp only [TokenBucket.acquire]; rw [if_pos h])
  · constructor <;> (simp only [TokenBucket.acquire]; rw [if_neg h])
  · by_cases h : min tb.capacity (tb.tokens + elapsed * tb.rate) < cost
    · have hw : (tb.acquire elapsed cost).1 =
          (cost - min tb.capacity (tb.tokens + elapsed * tb.rate)) / tb.rate := by
        simp only [TokenBucket.acquire]; rw [if_pos h]
      rw [hw]
      exact div_nonneg (by linarith) hrate.le
    · have hw : (tb.acquire elapsed cost).1 = 0 := by
        simp only [TokenBucket.acquire]; rw [if_neg h]
      rw [hw]

/-- C5 witness: a bucket with rate 2, capacity 10 and 1 token, after 1
elapsed second, serves a cost-5 acquire with a wait of exactly 1 second and
an emptied bucket. -/
theorem C5_token_bucket_acquire_witness :
    (0:ℚ) < ({ rate := 2, capacity := 10, tokens := 1 } : TokenBucket).rate ∧
    (TokenBucket.acquire { rate := 2, capacity := 10, tokens := 1 } 1 5).1 = 1 ∧
    (TokenBucket.acquire { rate := 2, capacity := 10, tokens := 1 } 1 5).2.tokens
      = 0 := by
  have h := C5_token_bucket_acquire
    { rate := 2, capacity := 10, tokens := 1 } 1 5 (by norm_num)
  have h1 := h.1 (by norm_num)
  refine ⟨by norm_num, ?_, h1.2⟩
  rw [h1.1]
  norm_num

/-- C2 counterexample: the claim quantifies over every call sequence, but
calling `mark_failed(1)` after `mark_completed(1)` leaves page 1 in both
`completed_pages` and `failed_pages`, so the two sets are not disjoint after
every call. -/
theorem C2_counterexample :
    1 ∈ ((({ pdf_path := "doc.pdf", total_pages := 2 } :
            ProgressState).mark_completed 1).mark_failed 1).completed_pages ∧
    1 ∈ ((({ pdf_path := "doc.pdf", total_pages := 2 } :
            ProgressState).mark_completed 1).mark_failed 1).failed_pages := by
  decide

/-- C2 amended: `mark_completed(p)` removes `p` from the (dup-free) failed
list, and for every call sequence in which `mark_failed` is never invoked on
an already-completed page — the discipline the coordinator follows — the
completed and failed sets stay disjoint after every call. -/
theorem C2_progress_disjoint_amended :
    (∀ (s : ProgressState) (p : ℕ), s.failed_pages.Nodup →
        ¬ p ∈ (s.mark_completed p).failed_pages) ∧
    (∀ (s : ProgressState) (ops : List MarkOp),
        s.DisjointSets → s.failed_pages.Nodup → safeSeq s ops = true →
        ∀ n, (s.runOps (ops.take n)).DisjointSets) := by
  constructor
  · intro s p hnd hmem
    simp only [ProgressState.mark_completed] at hmem
    by_cases hpf : p ∈ s.failed_pages
    · simp only [if_pos hpf] at hmem
      exact (hnd.mem_erase_iff.mp hmem).1 rfl
    · simp only [if_neg hpf] at hmem
      exact hpf hmem
  · intro s ops
    induction ops generalizing s with
    | nil =>
        intro hinv _ _ n
        cases n <;> simpa [ProgressState.runOps] using hinv
    | cons op rest ih =>
        intro hinv hnd hsafe n
        cases n with
        | zero => simpa [ProgressState.runOps] using hinv
        | succ m =>
            simp only [List.take_succ_cons, ProgressState.runOps]
            cases op with
            | completed p =>
                have h := markCompleted_preserves s p hinv hnd
                have hsafe' : safeSeq (s.mark_completed p) rest = true := by
                  simpa [safeSeq] using hsafe
                simpa [ProgressState.applyOp] using ih _ h.1 h.2 hsafe' m
            | failed p =>
                have hsafe' : ¬ p ∈ s.completed_pages ∧
                    safeSeq (s.mark_failed p) rest = true := by
                  simpa [safeSeq] using hsafe
                have h := markFailed_preserves s p hinv hnd hsafe'.1
                simpa [ProgressState.applyOp] using ih _ h.1 h.2 hsafe'.2 m

/-- C2 witness: a fresh state with the sequence
`[completed 1, failed 2, completed 2]` satisfies the safety discipline and
every intermediate state keeps the two sets disjoint. -/
theorem C2_progress_disjoint_amended_witness :
    (({ pdf_path := "b.pdf", total_pages := 3 } : ProgressState).DisjointSets ∧
     ({ pdf_path := "b.pdf", total_pages := 3 } :
        ProgressState).failed_pages.Nodup ∧
     safeSeq { pdf_path := "b.pdf", total_pages := 3 }
       [MarkOp.completed 1, MarkOp.failed 2, MarkOp.completed 2] = true) ∧
    ∀ n, (ProgressState.runOps { pdf_path := "b.pdf", total_pages := 3 }
        ([MarkOp.completed 1, MarkOp.failed 2,
          MarkOp.completed 2].take n)).DisjointSets :=
  ⟨⟨by decide, by decide, by decide⟩,
    C2_progress_disjoint_amended.2 _ _ (by decide) (by decide) (by decide)⟩

/-- C1: a `save` either durably commits the complete text under the page key
(`write temp` then atomic rename), or on a write/rename failure removes the
temporary file, leaves the committed map untouched and propagates the error;
consequently, over any sequence of saves — including crashes that strand a
partial temporary fragment — `get(page)` returns only a value committed in
full by some successful save, or what was committed before the trace. -/
theorem C1_cache_atomic_save :
    (∀ (fs : CacheFS) (page : ℕ) (text : String),
        (OCRCache.save fs page text .ok).2 = SaveResult.returned ∧
        OCRCache.get (OCRCache.save fs page text .ok).1 page = some text ∧
        (OCRCache.save fs page text .ok).1.temp page = none) ∧
    (∀ (fs : CacheFS) (page : ℕ) (text : String) (outcome : SaveOutcome),
        ((∃ frag, outcome = SaveOutcome.writeError frag) ∨
          outcome = SaveOutcome.renameError) →
        (OCRCache.save fs page text outcome).2 = SaveResult.raised ∧
        (OCRCache.save fs page text outcome).1.temp page = none ∧
        (OCRCache.save fs page text outcome).1.committed = fs.committed) ∧
    (∀ (fs : CacheFS) (trace : List SaveEvent) (page : ℕ) (t : String),
        OCRCache.get (runSaves fs trace) page = some t →
        CommittedIn trace page t ∨ OCRCache.get fs page = some t) := by
  refine ⟨?_, ?_, ?_⟩
  · intro fs page text
    refine ⟨rfl, ?_, ?_⟩
    · simp [OCRCache.save, OCRCache.get]
    · simp [OCRCache.save]
  · rintro fs page text outcome (⟨frag, rfl⟩ | rfl) <;>
      exact ⟨rfl, by simp [OCRCache.save], rfl⟩
  · intro fs trace
    induction trace generalizing fs with
    | nil => intro page t h; exact Or.inr h
    | cons e rest ih =>
        intro page t h
        simp only [runSaves] at h
        rcases ih _ page t h with hc | hbase
        · obtain ⟨ev, hmem, h1, h2, h3⟩ := hc
          exact Or.inl ⟨ev, List.mem_cons_of_mem _ hmem, h1, h2, h3⟩
        · obtain ⟨epage, etext, eoutcome⟩ := e
          cases eoutcome with
          | ok =>
              simp only [OCRCache.save, OCRCache.get] at hbase
              by_cases hp : page = epage
              · subst hp
                rw [Function.update_same] at hbase
                refine Or.inl ⟨⟨page, etext, .ok⟩, List.mem_cons_self _ _,
                  rfl, ?_, rfl⟩
                exact Option.some_injective _ hbase
              · rw [Function.update_noteq hp] at hbase
                exact Or.inr hbase
          | writeError frag => exact Or.inr hbase
          | renameError => exact Or.inr hbase
          | crashDuringWrite frag => exact Or.inr hbase
          | crashBeforeRename => exact Or.inr hbase

/-- C1 witness: after a successful save of page 1 and a crash mid-write of
page 2, `get 1` returns the committed text, and the theorem certifies it was
committed by an `ok` save in the trace (or pre-existing). -/
theorem C1_cache_atomic_save_witness :
    OCRCache.get (runSaves CacheFS.empty
        [⟨1, "पृष्ठ एक", SaveOutcome.ok⟩,
         ⟨2, "x", SaveOutcome.crashDuringWrite "pa"⟩]) 1 = some "पृष्ठ एक" ∧
    (CommittedIn
        [⟨1, "पृष्ठ एक", SaveOutcome.ok⟩,
         ⟨2, "x", SaveOutcome.crashDuringWrite "pa"⟩] 1 "पृष्ठ एक" ∨
      OCRCache.get CacheFS.empty 1 = some "पृष्ठ एक") :=
  ⟨by decide, C1_cache_atomic_save.2.2 CacheFS.empty
      [⟨1, "पृष्ठ एक", SaveOutcome.ok⟩,
       ⟨2, "x", SaveOutcome.crashDuringWrite "pa"⟩] 1 "पृष्ठ एक" (by decide)⟩

/-- Membership in the completed set after the cache-sync fold of
`process_pdf_async`: a page is completed afterwards iff it was completed
before or is cached. -/
theorem mem_syncFold (cached : List ℕ) (s : ProgressState) (p : ℕ) :
    p ∈ (cached.foldl
        (fun s page =>
          if page ∈ s.completed_pages then s else s.mark_completed page)
        s).completed_pages ↔ p ∈ s.completed_pages ∨ p ∈ cached := by
  induction cached generalizing s with
  | nil => simp
  | cons c rest ih =>
      simp only [List.foldl_cons, List.mem_cons]
      by_cases hc : c ∈ s.completed_pages
      · rw [if_pos hc, ih]
        constructor
        · rintro (h | h)
          · exact Or.inl h
          · exact Or.inr (Or.inr h)
        · rintro (h | rfl | h)
          · exact Or.inl h
          · exact Or.inl hc
          · exact Or.inr h
      · rw [if_neg hc, ih]
        simp only [ProgressState.mark_completed, if_neg hc, List.mem_append,
          List.mem_singleton]
        tauto

/-- C6: with `resume = true`, the recomputed pending list consists of exactly
the requested pages present in neither the loaded tracker state's
`completed_pages` nor the cache, in request order (a sublist of the request);
when the tracker mirrors the cache it equals `R \ C`. -/
theorem C6_resume_pending (loaded : Option ProgressState) (pdfPath : String)
    (pages cachedPages : List ℕ) :
    (computePendingResume true loaded pdfPath pages cachedPages).2 =
      pages.filter (fun p =>
        ¬ p ∈ (loaded.getD (freshState pdfPath pages)).completed_pages ∧
        ¬ p ∈ cachedPages) ∧
    (computePendingResume true loaded pdfPath pages cachedPages).2.Sublist
      pages ∧
    ((loaded.getD (freshState pdfPath pages)).completed_pages = cachedPages →
      (computePendingResume true loaded pdfPath pages cachedPages).2 =
        pages.filter (fun p => ¬ p ∈ cachedPages)) := by
  have hmain :
      (computePendingResume true loaded pdfPath pages cachedPages).2 =
        pages.filter (fun p =>
          ¬ p ∈ (loaded.getD (freshState pdfPath pages)).completed_pages ∧
          ¬ p ∈ cachedPages) := by
    simp only [computePendingResume, if_pos trivial,
      ProgressState.get_pending_pages]
    by_cases hc : cachedPages = []
    · subst hc
      simp [List.filter_filter]
    · rw [if_pos ⟨trivial, hc⟩, List.filter_filter]
      refine List.filter_congr fun p _ => ?_
      simp only [Bool.and_eq_true, decide_eq_true_eq, not_or, mem_syncFold]
      by_cases h1 : p ∈ (loaded.getD (freshState pdfPath pages)).completed_pages <;>
        by_cases h2 : p ∈ cachedPages <;> simp [h1, h2]
  refine ⟨hmain, ?_, ?_⟩
  · rw [hmain]; exact List.filter_sublist pages
  · intro hmirror
    rw [hmain]
    refine List.filter_congr fun p _ => ?_
    rw [hmirror]
    by_cases h2 : p ∈ cachedPages <;> simp [h2]

/-- C6 witness: a prior state that mirrors a cache of pages {2, 3}, with
request `[1,2,3,4]`, yields pending `R \ C = [1, 4]`. -/
theorem C6_resume_pending_witness :
    ((some { pdf_path := "a.pdf", total_pages := 4, completed_pages := [2, 3] }
        : Option ProgressState).getD
        (freshState "a.pdf" [1, 2, 3, 4])).completed_pages = [2, 3] ∧
    (computePendingResume true
        (some { pdf_path := "a.pdf", total_pages := 4,
                completed_pages := [2, 3] })
        "a.pdf" [1, 2, 3, 4] [2, 3]).2 =
      [1, 2, 3, 4].filter (fun p => ¬ p ∈ [2, 3]) :=
  ⟨by decide,
    (C6_resume_pending
        (some { pdf_path := "a.pdf", total_pages := 4,
                completed_pages := [2, 3] })
        "a.pdf" [1, 2, 3, 4] [2, 3]).2.2 (by decide)⟩

/-- C3: when the primary backend succeeds with confidence at or above the
configured threshold and the detector does not flag the text (recommendation
neither "verify" nor "high_priority"), the hybrid router returns the
primary's text unchanged with the primary-only label, and the Gemini
escalation backend is never invoked. -/
theorem C3_hybrid_primary_only (hb : HybridBackend)
    (primary gemini : OCRResult) (page : ℕ) (elapsed : ℚ)
    (hinit : hb.initialized = true)
    (hsucc : primary.success = true)
    (hconf : hb.confidence_threshold ≤ primary.confidence)
    (hverify : (MantraDetector.detect hb.verify_mantras
        primary.text).recommendation ≠ "verify")
    (hhigh : (MantraDetector.detect hb.verify_mantras
        primary.text).recommendation ≠ "high_priority") :
    (hb.process_image primary gemini page elapsed).1.text = primary.text ∧
    (hb.process_image primary gemini page elapsed).1.confidence =
      primary.confidence ∧
    (hb.process_image primary gemini page elapsed).1.success = true ∧
    (hb.process_image primary gemini page elapsed).1.backend_used =
      "hybrid:" ++ hb.primary_backend_type ∧
    (hb.process_image primary gemini page elapsed).2.2 = 0 := by
  have hlow : decide (primary.confidence < hb.confidence_threshold) = false :=
    decide_eq_false (not_lt.mpr hconf)
  have hflag : (hb.verify_mantras &&
      ((MantraDetector.detect hb.verify_mantras
          primary.text).recommendation == "verify" ||
        (MantraDetector.detect hb.verify_mantras
          primary.text).recommendation == "high_priority")) = false := by
    simp [hverify, hhigh]
  have hlabel : HybridBackend.name ++ ":" ++ hb.primary_backend_type =
      "hybrid:" ++ hb.primary_backend_type := rfl
  simp only [HybridBackend.process_image, hinit, hsucc, hlow, hflag]
  simp [hsucc, hlabel]

/-- C4: when the primary backend succeeds but the page is flagged for
escalation (low confidence or a detector flag) and the escalation backend
then fails, the hybrid router returns the primary's original successful
result — same text, confidence and error — relabeled as a degraded fallback,
after one escalation attempt. -/
theorem C4_hybrid_escalation_fallback (hb : HybridBackend)
    (primary gemini : OCRResult) (page : ℕ) (elapsed : ℚ)
    (hinit : hb.initialized = true)
    (hsucc : primary.success = true)
    (hneed : primary.confidence < hb.confidence_threshold ∨
      (hb.verify_mantras = true ∧
        ((MantraDetector.detect hb.verify_mantras
            primary.text).recommendation = "verify" ∨
          (MantraDetector.detect hb.verify_mantras
            primary.text).recommendation = "high_priority")))
    (hgfail : gemini.success = false) :
    (hb.process_image primary gemini page elapsed).1.text = primary.text ∧
    (hb.process_image primary gemini page elapsed).1.success = true ∧
    (hb.process_image primary gemini page elapsed).1.confidence =
      primary.confidence ∧
    (hb.process_image primary gemini page elapsed).1.error = primary.error ∧
    (hb.process_image primary gemini page elapsed).1.backend_used =
      "hybrid:" ++ hb.primary_backend_type ++ "-fallback" ∧
    (hb.process_image primary gemini page elapsed).2.2 = 1 := by
  have hng : (decide (primary.confidence < hb.confidence_threshold) ||
      (hb.verify_mantras &&
        ((MantraDetector.detect hb.verify_mantras
            primary.text).recommendation == "verify" ||
          (MantraDetector.detect hb.verify_mantras
            primary.text).recommendation == "high_priority"))) = true := by
    rcases hneed with h | ⟨hv, h⟩
    · simp [h]
    · rcases h with h | h <;> (rw [hv] at h; simp [hv, h])
  have hlabel : HybridBackend.name ++ ":" ++ hb.primary_backend_type ++
      "-fallback" = "hybrid:" ++ hb.primary_backend_type ++ "-fallback" := rfl
  simp only [HybridBackend.process_image, hinit, hsucc, hng, hgfail]
  simp [hsucc, hlabel]

/-- C3 witness: a confident primary result over unflagged text is returned
unchanged with label `hybrid:easyocr` and zero Gemini invocations. -/
theorem C3_hybrid_primary_only_witness :
    ((17/20 : ℚ) ≤ (19/20 : ℚ) ∧
      (MantraDetector.detect true "Sample page text").recommendation ≠
        "verify") ∧
    (HybridBackend.process_image { initialized := true }
        { page_num := 1, text := "Sample page text", success := true,
          confidence := 19/20 }
        { page_num := 1, text := "g", success := true } 1 2).1.text =
      "Sample page text" ∧
    (HybridBackend.process_image { initialized := true }
        { page_num := 1, text := "Sample page text", success := true,
          confidence := 19/20 }
        { page_num := 1, text := "g", success := true } 1 2).2.2 = 0 := by
  have h := C3_hybrid_primary_only { initialized := true }
    { page_num := 1, text := "Sample page text", success := true,
      confidence := 19/20 }
    { page_num := 1, text := "g", success := true } 1 2
    rfl rfl (by show (17/20 : ℚ) ≤ 19/20; norm_num) (by decide) (by decide)
  exact ⟨⟨by norm_num, by decide⟩, h.1, h.2.2.2.2⟩

/-- C4 witness: a low-confidence primary result whose escalation fails is
returned with its original text and the degraded-fallback label, after one
Gemini invocation. -/
theorem C4_hybrid_escalation_fallback_witness :
    ((1/2 : ℚ) < (17/20 : ℚ) ∧
      ({ page_num := 4, text := "", success := false,
          error := some "boom" } : OCRResult).success = false) ∧
    (HybridBackend.process_image { initialized := true }
        { page_num := 4, text := "कुछ पाठ", success := true,
          confidence := 1/2 }
        { page_num := 4, text := "", success := false, error := some "boom" }
        4 3).1.text = "कुछ पाठ" ∧
    (HybridBackend.process_image { initialized := true }
        { page_num := 4, text := "कुछ पाठ", success := true,
          confidence := 1/2 }
        { page_num := 4, text := "", success := false, error := some "boom" }
        4 3).1.backend_used = "hybrid:easyocr-fallback" ∧
    (HybridBackend.process_image { initialized := true }
        { page_num := 4, text := "कुछ पाठ", success := true,
          confidence := 1/2 }
        { page_num := 4, text := "", success := false, error := some "boom" }
        4 3).2.2 = 1 := by
  have h := C4_hybrid_escalation_fallback { initialized := true }
    { page_num := 4, text := "कुछ पाठ", success := true, confidence := 1/2 }
    { page_num := 4, text := "", success := false, error := some "boom" } 4 3
    rfl rfl (Or.inl (by show (1/2 : ℚ) < 17/20; norm_num)) rfl
  exact ⟨⟨by norm_num, rfl⟩, h.1, h.2.2.2.2.1, h.2.2.2.2.2⟩

/-- A hit in the left part of an appended association list survives. -/
theorem lookup_append_of_some (l₁ l₂ : List (ℕ × String)) (k : ℕ) (v : String)
    (h : l₁.lookup k = some v) : (l₁ ++ l₂).lookup k = some v := by
  induction l₁ with
  | nil => simp [List.lookup] at h
  | cons a rest ih =>
      obtain ⟨a1, a2⟩ := a
      by_cases hk : k = a1
      · simp only [List.lookup, List.cons_append] at h ⊢
        simpa [hk] using h
      · simp only [List.lookup, List.cons_append] at h ⊢
        rw [beq_false_of_ne hk] at h ⊢
        exact ih h

/-- A miss in the left part of an appended association list defers to the
right part. -/
theorem lookup_append_of_none (l₁ l₂ : List (ℕ × String)) (k : ℕ)
    (h : l₁.lookup k = none) : (l₁ ++ l₂).lookup k = l₂.lookup k := by
  induction l₁ with
  | nil => simp
  | cons a rest ih =>
      obtain ⟨a1, a2⟩ := a
      by_cases hk : k = a1
      · simp [List.lookup, hk] at h
      · simp only [List.lookup, List.cons_append] at h ⊢
        rw [beq_false_of_ne hk] at h ⊢
        exact ih h

/-- A successful lookup names a binding present in the list. -/
theorem mem_of_lookup_some (l : List (ℕ × String)) (k : ℕ) (v : String)
    (h : l.lookup k = some v) : (k, v) ∈ l := by
  induction l with
  | nil => simp [List.lookup] at h
  | cons a rest ih =>
      obtain ⟨a1, a2⟩ := a
      by_cases hk : k = a1
      · simp only [List.lookup, hk, beq_self_eq_true, Option.some.injEq] at h
        subst hk; subst h
        exact List.mem_cons_self _ _
      · simp only [List.lookup] at h
        rw [beq_false_of_ne hk] at h
        exact List.mem_cons_of_mem _ (ih h)

/-- A binding visible in the merged dict came from the list. -/
theorem dictGet_mem (d : List (ℕ × String)) (k : ℕ) (v : String)
    (h : dictGet d k = some v) : (k, v) ∈ d := by
  have := mem_of_lookup_some _ _ _ h
  exact List.mem_reverse.mp this

/-- In the merged dict, a binding of the new results wins. -/
theorem dictGet_append_right (a b : List (ℕ × String)) (k : ℕ) (v : String)
    (h : dictGet b k = some v) : dictGet (a ++ b) k = some v := by
  unfold dictGet at h ⊢
  rw [List.reverse_append]
  exact lookup_append_of_some _ _ _ _ h

/-- In the merged dict, when the new results have no binding the prior one is
read. -/
theorem dictGet_append_left (a b : List (ℕ × String)) (k : ℕ)
    (h : dictGet b k = none) : dictGet (a ++ b) k = dictGet a k := by
  unfold dictGet at h ⊢
  rw [List.reverse_append]
  exact lookup_append_of_none _ _ _ h

/-- Any binding of the merged dict is written in the output exactly once. -/
theorem writeOutputSections_complete (existing results : List (ℕ × String))
    (p : ℕ) (t : String)
    (hall : dictGet (existing ++ results) p = some t) :
    (p, t) ∈ writeOutputSections existing results ∧
    ∀ t', (p, t') ∈ writeOutputSections existing results → t' = t := by
  constructor
  · have hmem : (p, t) ∈ existing ++ results := dictGet_mem _ _ _ hall
    have hp : p ∈ (existing ++ results).map Prod.fst :=
      List.mem_map_of_mem Prod.fst hmem
    have hp2 : p ∈ ((existing ++ results).map Prod.fst).dedup :=
      List.mem_dedup.mpr hp
    have hp3 : p ∈ (((existing ++ results).map Prod.fst).dedup).mergeSort
        (· ≤ ·) := List.mem_mergeSort.mpr hp2
    have hm : (p, (dictGet (existing ++ results) p).getD "") ∈
        writeOutputSections existing results := by
      simp only [writeOutputSections]
      exact List.mem_map_of_mem _ hp3
    rwa [hall, Option.getD_some] at hm
  · intro t' ht'
    simp only [writeOutputSections, List.mem_map] at ht'
    obtain ⟨q, _, heq⟩ := ht'
    obtain ⟨h1, h2⟩ := Prod.mk.injEq .. ▸ heq
    subst h1
    rw [hall, Option.getD_some] at h2
    exact h2.symm

/-- C10: when `_write_output` rewrites the artifact, a page present in both
the parsed prior artifact and the new results map is written with the new
text (the prior text is discarded), and a page present only in the prior
artifact keeps its prior text; each such page is written exactly once. -/
theorem C10_output_merge (existing results : List (ℕ × String)) (p : ℕ)
    (t : String) :
    (dictGet results p = some t →
        (p, t) ∈ writeOutputSections existing results ∧
        ∀ t', (p, t') ∈ writeOutputSections existing results → t' = t) ∧
    (dictGet results p = none → dictGet existing p = some t →
        (p, t) ∈ writeOutputSections existing results ∧
        ∀ t', (p, t') ∈ writeOutputSections existing results → t' = t) := by
  constructor
  · intro hres
    exact writeOutputSections_complete existing results p t
      (dictGet_append_right _ _ _ _ hres)
  · intro hnone hex
    refine writeOutputSections_complete existing results p t ?_
    rw [dictGet_append_left _ _ _ hnone]
    exact hex

/-- C10 witness: with prior artifact `{1 ↦ "old", 2 ↦ "keep"}` and new
results `{1 ↦ "new"}`, the rewritten artifact carries `(1, "new")` and
`(2, "keep")`. -/
theorem C10_output_merge_witness :
    (dictGet [(1, "new")] 1 = some "new" ∧
      dictGet [(1, "new")] 2 = none ∧
      dictGet [(1, "old"), (2, "keep")] 2 = some "keep") ∧
    (1, "new") ∈ writeOutputSections [(1, "old"), (2, "keep")] [(1, "new")] ∧
    (2, "keep") ∈ writeOutputSections [(1, "old"), (2, "keep")] [(1, "new")] :=
  ⟨⟨by decide, by decide, by decide⟩,
    ((C10_output_merge [(1, "old"), (2, "keep")] [(1, "new")] 1 "new").1
      (by decide)).1,
    ((C10_output_merge [(1, "old"), (2, "keep")] [(1, "new")] 2 "keep").2
      (by decide) (by decide)).1⟩

/-- Closed form of the async retry loop when every attempt raises: the loop
runs `remaining` further attempts starting at `attempt`, returns the terminal
failure, and sleeps `retry_base_delay·3^n` after a quota error at attempt `n`
(even the last) and `retry_base_delay·2^n` after any other error at a
non-final attempt. -/
theorem asyncAux_exn_run (cfg : AsyncOCRConfig) (msgs : ℕ → String)
    (durA : ℕ → ℚ) (finA : ℚ) (page : ℕ) :
    ∀ (remaining attempt : ℕ),
      asyncAttemptsAux cfg (fun _ => false) (fun n => .exn (msgs n)) durA finA
          page attempt remaining =
        ({ page_num := page,
           error := some s!"Failed after {cfg.max_retries} attempts",
           duration := finA },
         ((List.range remaining).map (fun i => attempt + i)).filterMap
           (fun n => if isQuotaError (msgs n) then
               some (cfg.retry_base_delay * 3 ^ n)
             else if n < cfg.max_retries - 1 then
               some (cfg.retry_base_delay * 2 ^ n)
             else none)) := by
  intro remaining
  induction remaining with
  | zero => intro attempt; simp [asyncAttemptsAux]
  | succ rem ih =>
      intro attempt
      have hmap : ((List.range (rem + 1)).map (fun i => attempt + i)) =
          attempt :: ((List.range rem).map (fun i => (attempt + 1) + i)) := by
        rw [List.range_succ_eq_map, List.map_cons, List.map_map]
        refine congrArg₂ _ (Nat.add_zero attempt) ?_
        refine List.map_congr_left fun i _ => ?_
        show attempt + (i + 1) = attempt + 1 + i
        omega
      rw [hmap]
      cases hq : isQuotaError (msgs attempt) with
      | true =>
          simp [asyncAttemptsAux, hq, ih (attempt + 1), List.filterMap_cons]
      | false =>
          by_cases hlast : attempt < cfg.max_retries - 1 <;>
            simp [asyncAttemptsAux, hq, hlast, ih (attempt + 1),
              List.filterMap_cons]

/-- Closed form of the Gemini retry loop when every attempt raises: terminal
failure after `remaining` further attempts, sleeping `2·2^n·2` seconds after a
quota error at attempt `n` (even the last) and `2·2^n` seconds after any
other error at a non-final attempt. -/
theorem geminiAux_exn_run (mr : ℕ) (msgs : ℕ → String) (durG : ℕ → ℚ)
    (finG : ℚ) (dm : Bool) (page : ℕ) :
    ∀ (remaining attempt : ℕ),
      geminiAttemptsAux mr (fun n => .exn (msgs n)) durG finG dm page attempt
          remaining =
        ({ page_num := page, text := "", success := false
           error := some s!"Failed after {mr} attempts"
           duration := finG, backend_used := "gemini" },
         ((List.range remaining).map (fun i => attempt + i)).filterMap
           (fun n => if isQuotaError (msgs n) then some ((2:ℚ) * 2 ^ n * 2)
             else if n < mr - 1 then some ((2:ℚ) * 2 ^ n) else none)) := by
  intro remaining
  induction remaining with
  | zero => intro attempt; simp [geminiAttemptsAux]
  | succ rem ih =>
      intro attempt
      have hmap : ((List.range (rem + 1)).map (fun i => attempt + i)) =
          attempt :: ((List.range rem).map (fun i => (attempt + 1) + i)) := by
        rw [List.range_succ_eq_map, List.map_cons, List.map_map]
        refine congrArg₂ _ (Nat.add_zero attempt) ?_
        refine List.map_congr_left fun i _ => ?_
        show attempt + (i + 1) = attempt + 1 + i
        omega
      rw [hmap]
      cases hq : isQuotaError (msgs attempt) with
      | true =>
          simp [geminiAttemptsAux, hq, ih (attempt + 1), List.filterMap_cons]
      | false =>
          by_cases hlast : attempt < mr - 1 <;>
            simp [geminiAttemptsAux, hq, hlast, ih (attempt + 1),
              List.filterMap_cons]

/-- C7 counterexample: in `GeminiBackend.process_image` (one of the claim's
two cited retry loops) the backoff base is 2.0 seconds — a non-quota error at
attempt 0 sleeps 2.0·2⁰ = 2, as the transient trace shows — so the claim
predicts a first quota backoff of `baseDelay·3⁰ = 2` seconds; the code sleeps
`2.0·2⁰·2 = 4` seconds, and successive quota backoffs grow by a factor of 2
(`[4, 8, 16]`), not 3. -/
theorem C7_counterexample :
    (GeminiBackend.process_image 3
        (fun _ => AttemptOutcome.exn "429 RESOURCE_EXHAUSTED")
        (fun _ => 0) 0 true 7).2 = [4, 8, 16] ∧
    (GeminiBackend.process_image 3
        (fun _ => AttemptOutcome.exn "server timeout")
        (fun _ => 0) 0 true 7).2 = [2, 4] ∧
    ¬ ((4:ℚ) = 2 * 3 ^ 0) := by
  have hq : isQuotaError "429 RESOURCE_EXHAUSTED" = true := by decide
  have ht : isQuotaError "server timeout" = false := by decide
  have hr : List.range 3 = [0, 1, 2] := by decide
  refine ⟨?_, ?_, by norm_num⟩
  · rw [GeminiBackend.process_image,
      geminiAux_exn_run 3 (fun _ => "429 RESOURCE_EXHAUSTED")
        (fun _ => 0) 0 true 7 3 0]
    simp only [hr, List.map_cons, List.map_nil, List.filterMap_cons,
      List.filterMap_nil, hq, if_true]
    norm_num
  · rw [GeminiBackend.process_image,
      geminiAux_exn_run 3 (fun _ => "server timeout")
        (fun _ => 0) 0 true 7 3 0]
    simp only [hr, List.map_cons, List.map_nil, List.filterMap_cons,
      List.filterMap_nil, ht, if_false]
    norm_num

/-- C7 amended: the coordinator's loop
(`AsyncOCRProcessor._process_single_page`) backs off `retry_base_delay·3^n`
after a quota error at attempt `n` and `retry_base_delay·2^n` after another
transient error at a non-final attempt, while `GeminiBackend.process_image`
backs off `2·2^n` seconds for transient errors and twice that (`4·2^n`, a
factor-2 progression, not 3) for quota errors; in both loops, once the last
attempt (n = maxRetries−1) has failed no further attempt is made and a
terminal failure result is returned (a quota error still sleeps once after
the last attempt). -/
theorem C7_retry_backoff_amended (cfg : AsyncOCRConfig) (msgs : ℕ → String)
    (durA : ℕ → ℚ) (finA : ℚ) (page : ℕ) (mr : ℕ) (durG : ℕ → ℚ) (finG : ℚ)
    (dm : Bool) :
    (AsyncOCRProcessor.process_single_page cfg (fun _ => false)
        (fun n => .exn (msgs n)) durA finA page).1 =
      { page_num := page,
        error := some s!"Failed after {cfg.max_retries} attempts",
        duration := finA } ∧
    (AsyncOCRProcessor.process_single_page cfg (fun _ => false)
        (fun n => .exn (msgs n)) durA finA page).2 =
      (List.range cfg.max_retries).filterMap
        (fun n => if isQuotaError (msgs n) then
            some (cfg.retry_base_delay * 3 ^ n)
          else if n < cfg.max_retries - 1 then
            some (cfg.retry_base_delay * 2 ^ n)
          else none) ∧
    (GeminiBackend.process_image mr (fun n => .exn (msgs n)) durG finG dm
        page).1 =
      { page_num := page, text := "", success := false
        error := some s!"Failed after {mr} attempts"
        duration := finG, backend_used := "gemini" } ∧
    (GeminiBackend.process_image mr (fun n => .exn (msgs n)) durG finG dm
        page).2 =
      (List.range mr).filterMap
        (fun n => if isQuotaError (msgs n) then some ((2:ℚ) * 2 ^ n * 2)
          else if n < mr - 1 then some ((2:ℚ) * 2 ^ n) else none) := by
  have hid : ∀ m : ℕ, (List.range m).map (fun i => 0 + i) = List.range m := by
    intro m
    refine (List.map_congr_left fun i _ => Nat.zero_add i).trans (List.map_id _)
  refine ⟨?_, ?_, ?_, ?_⟩
  · rw [AsyncOCRProcessor.process_single_page,
      asyncAux_exn_run cfg msgs durA finA page cfg.max_retries 0]
  · rw [AsyncOCRProcessor.process_single_page,
      asyncAux_exn_run cfg msgs durA finA page cfg.max_retries 0, hid]
  · rw [GeminiBackend.process_image,
      geminiAux_exn_run mr msgs durG finG dm page mr 0]
  · rw [GeminiBackend.process_image,
      geminiAux_exn_run mr msgs durG finG dm page mr 0, hid]

/-- Folding `max` over copies of the accumulator is a no-op. -/
theorem foldl_max_replicate (k : ℕ) (a : ℚ) (rest : List ℚ) :
    List.foldl max a (List.replicate k a ++ rest) = List.foldl max a rest := by
  induction k with
  | zero => rfl
  | succ n ih => simpa [List.replicate_succ, max_self] using ih

/-- The maximum of a block of equal entries followed by a tail equals the
maximum of one such entry followed by the tail. -/
theorem listMaxQ_replicate_append (k : ℕ) (a : ℚ) (rest : List ℚ) :
    listMaxQ (List.replicate (k + 1) a ++ rest) = listMaxQ (a :: rest) := by
  rw [List.replicate_succ, List.cons_append]
  exact foldl_max_replicate k a rest

/-- The `scores` list has exactly one entry per distinct matched bija pattern
plus one per other matched category. -/
theorem detectScores_length (t : List Char) :
    (detectScores t).length = bonusEntryCount t := by
  simp only [detectScores, scoresTail, bonusEntryCount, List.length_append,
    List.length_replicate, apply_ite List.length, List.length_singleton,
    List.length_nil]
  omega

/-- The confidence computed by `detect`'s score fold agrees with the closed
amended formula. -/
theorem confidenceOf_eq_amended (t : List Char) :
    confidenceOf t = amendedScore t := by
  rcases hk : bijaDistinct t with _ | k
  · have hsc : detectScores t = categoryWeights t := by
      rw [detectScores, categoryWeights, hk]
      simp
    by_cases hz : bonusEntryCount t = 0
    · have hnil : categoryWeights t = [] := by
        rw [← hsc]
        exact List.length_eq_zero.mp ((detectScores_length t).trans hz)
      rw [confidenceOf, amendedScore]
      simp [hsc, hnil, hz]
    · have hlenc : (categoryWeights t).length = bonusEntryCount t := by
        rw [← hsc]; exact detectScores_length t
      have hnec : (categoryWeights t).isEmpty = false := by
        rcases hempty : categoryWeights t with _ | _
        · rw [hempty] at hlenc
          exact absurd hlenc.symm hz
        · rfl
      rw [confidenceOf, amendedScore]
      simp only [hsc, hlenc, hnec, Bool.false_eq_true, if_false, if_neg hz]
  · have hpos : 0 < bijaDistinct t := by omega
    have hmax : listMaxQ (detectScores t) = listMaxQ (categoryWeights t) := by
      rw [detectScores, categoryWeights, hk, if_pos (by omega : (0:ℕ) < k + 1),
        List.singleton_append]
      exact listMaxQ_replicate_append k (9/10) (scoresTail t)
    have hz : bonusEntryCount t ≠ 0 := by
      rw [← detectScores_length, detectScores, hk]
      simp [List.replicate_succ]
    have hne : (detectScores t).isEmpty = false := by
      rcases hempty : detectScores t with _ | _
      · exfalso
        apply hz
        rw [← detectScores_length, hempty]
        rfl
      · rfl
    rw [confidenceOf, amendedScore]
    simp only [detectScores_length, hne, Bool.false_eq_true, if_false,
      if_neg hz, hmax]

/-- C8 amended: for every input, the detector's score equals the maximum
matched-category weight scaled by 0.05 per additional score ENTRY beyond the
first — one entry per distinct matched seed-syllable pattern plus one per
other matched category — capped at 5 bonus steps and at 1.0, and 0 when
nothing matches. -/
theorem C8_detect_score_amended (strict : Bool) (text : String) :
    (MantraDetector.detect strict text).confidence = amendedScore text.data := by
  by_cases ht : text = ""
  · subst ht
    show (MantraDetector.detect strict "").confidence = amendedScore "".data
    rfl
  · have hconf : (MantraDetector.detect strict text).confidence =
        confidenceOf text.data := by
      simp [MantraDetector.detect, ht]
    rw [hconf, confidenceOf_eq_amended]

/-- C8 counterexample: "ॐ ऐं" matches two distinct seed-syllable patterns and
no other category, so a single category is matched and the claim's formula
(bonus per additional distinct matched CATEGORY) yields 0.9; the code's
bonus counts score entries — one per distinct bija pattern — and yields
0.9·1.05 = 0.945. -/
theorem C8_counterexample :
    (MantraDetector.detect true "ॐ ऐं").confidence = 189/200 ∧
    claimScore "ॐ ऐं".data = 9/10 ∧
    ¬ ((189:ℚ)/200 = 9/10) := by
  have hb : bijaDistinct "ॐ ऐं".data = 2 := by decide
  have htail : scoresTail "ॐ ऐं".data = [] := by
    have hv : verseMarkerTotal "ॐ ऐं".data = 0 := by decide
    have hn : numberedVerseCount "ॐ ऐं".data = 0 := by decide
    have hs : sectionCount "ॐ ऐं".data = 0 := by decide
    have hd : deityCount "ॐ ऐं".data = 0 := by decide
    have hy : yantraCount "ॐ ऐं".data = 0 := by decide
    rw [scoresTail, hv, hn, hs, hd, hy]
    simp
  refine ⟨?_, ?_, by norm_num⟩
  · have hconf : (MantraDetector.detect true "ॐ ऐं").confidence =
        confidenceOf "ॐ ऐं".data := by
      simp [MantraDetector.detect]
    rw [hconf, confidenceOf, detectScores, hb, htail]
    norm_num [listMaxQ, List.replicate, min_def]
  · rw [claimScore, categoryWeights, hb, htail]
    norm_num [listMaxQ, min_def]

/-- The recommendation computed by `detect` follows the
high-priority/verify/skip cascade over the bija occurrence total and the
distinct section-indicator count. -/
theorem detect_recommendation_spec (strict : Bool) (text : String) :
    (MantraDetector.detect strict text).recommendation =
      if 3 ≤ bijaOccTotal text.data ∨
          (0 < bijaOccTotal text.data ∧ 2 ≤ sectionCount text.data) then
        "high_priority"
      else if (MantraDetector.detect strict text).contains_mantra then "verify"
      else "skip" := by
  by_cases ht : text = ""
  · subst ht
    have h0 : bijaOccTotal "".data = 0 := by decide
    simp [MantraDetector.detect, h0]
  · simp only [MantraDetector.detect, if_neg ht]

/-- C9: the escalation tier is `high_priority` exactly when the seed-syllable
match count is ≥3 or (it is ≥1 and at least 2 distinct section-keyword
indicators match); `verify` exactly when the text is flagged but not
high-priority; otherwise `skip` (the spec's tier `none`).  In particular,
text containing three distinct seed syllables is high-priority, and text
matching no pattern is tier `skip` with score 0. -/
theorem C9_escalation_tier :
    (∀ (strict : Bool) (text : String),
      ((MantraDetector.detect strict text).recommendation = "high_priority" ↔
        (3 ≤ bijaOccTotal text.data ∨
          (1 ≤ bijaOccTotal text.data ∧ 2 ≤ sectionCount text.data))) ∧
      ((MantraDetector.detect strict text).recommendation = "verify" ↔
        ((MantraDetector.detect strict text).contains_mantra = true ∧
          ¬ (3 ≤ bijaOccTotal text.data ∨
            (1 ≤ bijaOccTotal text.data ∧ 2 ≤ sectionCount text.data)))) ∧
      ((MantraDetector.detect strict text).recommendation = "skip" ↔
        ((MantraDetector.detect strict text).contains_mantra = false ∧
          ¬ (3 ≤ bijaOccTotal text.data ∨
            (1 ≤ bijaOccTotal text.data ∧ 2 ≤ sectionCount text.data))))) ∧
    (MantraDetector.detect true "ॐ ऐं स्वाहा").recommendation =
      "high_priority" ∧
    (MantraDetector.detect true "hello world").recommendation = "skip" ∧
    (MantraDetector.detect true "hello world").confidence = 0 := by
  refine ⟨?_, by decide, by decide, by decide⟩
  intro strict text
  have h := detect_recommendation_spec strict text
  have d1 : ("high_priority" : String) ≠ "verify" := by decide
  have d2 : ("high_priority" : String) ≠ "skip" := by decide
  have d3 : ("verify" : String) ≠ "skip" := by decide
  by_cases hp : 3 ≤ bijaOccTotal text.data ∨
      (0 < bijaOccTotal text.data ∧ 2 ≤ sectionCount text.data)
  · have hp' : 3 ≤ bijaOccTotal text.data ∨
        (1 ≤ bijaOccTotal text.data ∧ 2 ≤ sectionCount text.data) := by omega
    rw [if_pos hp] at h
    refine ⟨iff_of_true h hp',
      iff_of_false (fun he => d1 (h.symm.trans he)) (fun hcon => hcon.2 hp'),
      iff_of_false (fun he => d2 (h.symm.trans he)) (fun hcon => hcon.2 hp')⟩
  · have hp' : ¬ (3 ≤ bijaOccTotal text.data ∨
        (1 ≤ bijaOccTotal text.data ∧ 2 ≤ sectionCount text.data)) := by omega
    rw [if_neg hp] at h
    cases hc : (MantraDetector.detect strict text).contains_mantra with
    | true =>
        rw [hc, if_pos rfl] at h
        exact ⟨iff_of_false (fun he => d1 ((h.symm.trans he).symm)) hp',
          iff_of_true h ⟨rfl, hp'⟩,
          iff_of_false (fun he => d3 (h.symm.trans he))
            (fun hcon => by simpa using hcon.1)⟩
    | false =>
        rw [hc] at h
        simp only [Bool.false_eq_true, if_false] at h
        exact ⟨iff_of_false (fun he => d2 ((h.symm.trans he).symm)) hp',
          iff_of_false (fun he => d3 ((h.symm.trans he).symm))
            (fun hcon => by simpa using hcon.1),
          iff_of_true h ⟨rfl, hp'⟩⟩

/-- C9 witness: one seed syllable plus two distinct section keywords triggers
the high-priority tier, in lenient mode too. -/
theorem C9_escalation_tier_witness :
    (3 ≤ bijaOccTotal "ॐ ऐं स्वाहा".data ∨
      (1 ≤ bijaOccTotal "ॐ ऐं स्वाहा".data ∧
        2 ≤ sectionCount "ॐ ऐं स्वाहा".data)) ∧
    (MantraDetector.detect false "ॐ ऐं स्वाहा").recommendation =
      "high_priority" :=
  ⟨by decide, ((C9_escalation_tier.1 false "ॐ ऐं स्वाहा").1).mpr (by decide)⟩

end OCRHindi
